import Mathlib

/-
Verification development for the nid-verification-service repository.

The JavaScript source is shallowly embedded as executable Lean functions:
  * JValue models the JSON bodies exchanged with the external registry
    and stored by the audit sink (src/services/nidService.js,
    src/middleware/requestLogger.js).
  * NIDService state and the verifyNID / authenticate / ensureValidToken /
    processPhoto flow of src/services/nidService.js are modelled as pure
    functions over an explicit environment: the sequence of network
    outcomes the registry produces (axios is modelled by its documented
    behaviour under the validateStatus option used in the source:
    a response with status < 500 resolves; status >= 500 or a network
    failure rejects with an error that carries the response only in the
    former case).
  * sanitizeResponseData of the request-logger middleware is modelled
    twice: a value-level version (the value it returns) and a heap-level
    version that makes the JSON.parse(JSON.stringify(..)) copy and the
    subsequent in-place mutations explicit, so that the frame property
    (the argument object is never mutated) is a real statement.
  * the credential cache concurrency of ensureValidToken is modelled by a
    small interleaved-schedule semantics over the shared service state.
-/

namespace NidVerif

/-- JSON-like values exchanged with the registry and stored by the audit
sink.  Objects are association lists of fields. -/
inductive JValue where
  | null : JValue
  | bool (b : Bool) : JValue
  | str (s : String) : JValue
  | num (n : Int) : JValue
  | obj (fields : List (String × JValue)) : JValue
deriving Repr

/-- Field lookup in an object body (first occurrence wins, as in JS). -/
def lookupKeyJ : List (String × JValue) → String → Option JValue
  | [], _ => none
  | (k, v) :: rest, key => if k = key then some v else lookupKeyJ rest key

/-- Property access `v[k]`: `none` plays the role of JS `undefined`
(also for property access on primitives). -/
def getField : JValue → String → Option JValue
  | .obj fs, k => lookupKeyJ fs k
  | _, _ => none

/-- Chained property access `v[k1][k2]...` with optional-chaining
semantics: any miss yields `none` (undefined). -/
def getPath : JValue → List String → Option JValue
  | v, [] => some v
  | v, k :: rest =>
    match getField v k with
    | some w => getPath w rest
    | none => none

/-- JavaScript truthiness of a JSON value. -/
def truthy : JValue → Bool
  | .null => false
  | .bool b => b
  | .str s => decide (s ≠ "")
  | .num n => decide (n ≠ 0)
  | .obj _ => true

/-- Truthiness of a possibly-undefined value (`undefined` is falsy). -/
def truthyO (o : Option JValue) : Bool :=
  match o with
  | some v => truthy v
  | none => false

/-- The JS expression `a || d` applied to a possibly-undefined `a`. -/
def jsOr (o : Option JValue) (d : JValue) : JValue :=
  match o with
  | some v => if truthy v then v else d
  | none => d

/-- String interpolation of a value inside a JS template literal. -/
def jsTemplate : JValue → String
  | .null => "null"
  | .bool b => if b then "true" else "false"
  | .str s => s
  | .num n => toString n
  | .obj _ => "[object Object]"

/-- Replace the value at `key` (or append it, as JS assignment does when
the key is absent); `f` transforms the present value, `absent` is stored
when the key is missing. -/
def setAtKeyJ (fs : List (String × JValue)) (key : String)
    (f : JValue → JValue) (absent : JValue) : List (String × JValue) :=
  match fs with
  | [] => [(key, absent)]
  | (k, v) :: rest =>
    if k = key then (k, f v) :: rest else (k, v) :: setAtKeyJ rest key f absent

/-- The JS assignment `v.k1.k2...kn = x` as a functional update.  On a
primitive receiver the value is returned unchanged (all uses in the
source are guarded so that the receiver is an object). -/
def setPath (v : JValue) (p : List String) (x : JValue) : JValue :=
  match p with
  | [] => x
  | k :: rest =>
    match v with
    | .obj fs =>
      .obj (setAtKeyJ fs k (fun old => setPath old rest x) (setPath (.obj []) rest x))
    | other => other

/-- Prefix test on strings, used to model `String.prototype.startsWith`
(kernel-reducible implementation over the character list). -/
def strStartsWith (s pre : String) : Bool :=
  pre.data.isPrefixOf s.data

/-- Does `pat` occur as a contiguous run inside `s`?  Models
`String.prototype.includes`. -/
def listHasInfix (pat : List Char) : List Char → Bool
  | [] => pat.isEmpty
  | c :: rest => pat.isPrefixOf (c :: rest) || listHasInfix pat rest

/-- Substring test used to model `String.prototype.includes`. -/
def hasSubstring (s pat : String) : Bool :=
  listHasInfix pat.data s.data

/-- ASCII upper-casing, models `String.prototype.toUpperCase` on the
ASCII field names it is applied to. -/
def strToUpper (s : String) : String :=
  ⟨s.data.map Char.toUpper⟩

/-- ASCII lower-casing, models `String.prototype.toLowerCase`. -/
def strToLower (s : String) : String :=
  ⟨s.data.map Char.toLower⟩

/-
Embedding of src/services/nidService.js.
-/

/-- The mutable fields of the NIDService singleton that the verification
flow touches: `this.accessToken` (a JS value, initially null) and
`this.tokenExpiry` (a Date, in epoch milliseconds, or null). -/
structure SvcState where
  accessToken : JValue
  tokenExpiry : Option Nat
deriving Repr

/-- An HTTP response as delivered by axios: status code and parsed body. -/
structure HResp where
  status : Nat
  data : JValue
deriving Repr

/-- The outcome of one outbound HTTP request: a response arrived (any
status), or no response was received (network failure / timeout,
carrying the axios error message). -/
inductive NetOutcome where
  | resp (r : HResp) : NetOutcome
  | netError (msg : String) : NetOutcome
deriving Repr

/-- A thrown JS error as observed by the catch blocks of the source: its
message and, for axios rejections only, the attached response.  Errors
constructed with plain `new Error(...)` carry no response. -/
structure JSError where
  message : String
  response : Option HResp
deriving Repr

/-- axios error message for a rejected response. -/
def axiosErrMsg (status : Nat) : String :=
  "Request failed with status code " ++ toString status

/-- The check `response.data.status === 'OK'`. -/
def isOKStatus (d : JValue) : Bool :=
  match getField d "status" with
  | some (.str s) => s == "OK"
  | _ => false

/-- authenticate(): POST /auth/login with validateStatus accepting any
status below 500.  On `{status:"OK", success:{data:{access_token}}}` the
token is cached with a one-hour expiry; every failure is rethrown as a
plain error (no response attached) whose message starts with
"Authentication failed: ". -/
def authenticate (now : Nat) (o : NetOutcome) : Except JSError SvcState :=
  match o with
  | .netError m => .error ⟨"Authentication failed: " ++ m, none⟩
  | .resp r =>
    if r.status ≥ 500 then
      .error ⟨"Authentication failed: " ++ axiosErrMsg r.status, none⟩
    else if isOKStatus r.data &&
        truthyO (getPath r.data ["success", "data", "access_token"]) then
      .ok { accessToken := (getPath r.data ["success", "data", "access_token"]).getD .null,
            tokenExpiry := some (now + 60 * 60 * 1000) }
    else
      .error ⟨"Authentication failed: Authentication failed: Invalid response format", none⟩

/-- The refresh condition of ensureValidToken():
`!this.accessToken || (this.tokenExpiry && new Date() >= this.tokenExpiry)`. -/
def needsAuth (st : SvcState) (now : Nat) : Bool :=
  !truthy st.accessToken ||
    (match st.tokenExpiry with
     | some e => decide (e ≤ now)
     | none => false)

/-- ensureValidToken(): authenticate only when the cached credential is
absent or expired, consuming the next login outcome from the
environment.  The third component counts login exchanges performed. -/
def ensureValidToken (st : SvcState) (now : Nat) (auths : List NetOutcome) :
    Except JSError SvcState × List NetOutcome × Nat :=
  if needsAuth st now then
    match auths with
    | o :: rest => (authenticate now o, rest, 1)
    | [] => (authenticate now (.netError "No response received from server"), [], 1)
  else
    (.ok st, auths, 0)

/-- NID channel selection of verifyNID:
`nid.length === 17 ? 'nid17Digit' : 'nid10Digit'`. -/
def nidChannel (nid : String) : String :=
  if nid.length = 17 then "nid17Digit" else "nid10Digit"

/-- The outbound verification payload: `{identify: {[nidChannel nid]: nid},
verify: {nameEn, dateOfBirth}}`. -/
structure RequestPayload where
  channel : String
  idValue : String
  nameEn : String
  dateOfBirth : String
deriving Repr

/-- Payload construction from verifyNID. -/
def mkRequestPayload (nid dateOfBirth nameEn : String) : RequestPayload :=
  { channel := nidChannel nid, idValue := nid, nameEn := nameEn, dateOfBirth := dateOfBirth }

/-
Embedding of src/utils/imageUtils.js (isValidImageUrl / fetchImageAsBase64).
The WHATWG URL parser is an external collaborator; its result on the
photo string is supplied as an oracle value.
-/

/-- The parts of a parsed URL consulted by isValidImageUrl. -/
structure UrlParts where
  protocol : String
  pathname : String
deriving Repr

/-- Result of `new URL(url)`: parsed parts, or a thrown parse error. -/
inductive ParseUrl where
  | ok (u : UrlParts) : ParseUrl
  | err : ParseUrl
deriving Repr

def validProtocols : List String := ["http:", "https:"]

def validExtensions : List String :=
  [".jpg", ".jpeg", ".png", ".gif", ".bmp", ".webp"]

/-- isValidImageUrl: http/https protocol and a recognized image extension
somewhere in the lower-cased pathname; a URL parse error yields false. -/
def isValidImageUrl (p : ParseUrl) : Bool :=
  match p with
  | .err => false
  | .ok u =>
    validProtocols.contains u.protocol &&
      validExtensions.any (fun ext => hasSubstring (strToLower u.pathname) ext)

/-- Outcome of the image fetch performed by fetchImageAsBase64: content
type and base64 bytes on success, or the error message of a fetch
failure/timeout. -/
inductive FetchOutcome where
  | ok (contentType : String) (base64 : String) : FetchOutcome
  | err (msg : String) : FetchOutcome
deriving Repr

/-- processPhoto(personData): skip silently when the photo field is
falsy or the URL is not a valid image URL; otherwise replace the photo
field with the fetched data URL; a fetch failure is caught and leaves
the object untouched. -/
def processPhoto (d : JValue) (parse : ParseUrl) (fetch : FetchOutcome) : JValue :=
  if !truthyO (getField d "photo") || !isValidImageUrl parse then d
  else
    match fetch with
    | .ok ct b64 => setPath d ["photo"] (.str ("data:" ++ ct ++ ";base64," ++ b64))
    | .err _ => d

/-- The result object verifyNID resolves with. -/
structure VResult where
  success : Bool
  verified : JValue
  data : JValue
  fieldVerificationResult : JValue
  message : Option String
deriving Repr

/-- The result built on the HTTP-200 `status === 'OK'` branch of
verifyNID (lines 132-152 of nidService.js).  Note that `verified` and
`fieldVerificationResult` are read from the top level of the body while
`data` is read from `success.data`. -/
def mkOKResult (body : JValue) : VResult :=
  { success := true
    verified := jsOr (getField body "verified") (.bool false)
    data := jsOr (getPath body ["success", "data"]) (.obj [])
    fieldVerificationResult := jsOr (getField body "fieldVerificationResult") (.obj [])
    message := none }

/-- The result built on the HTTP-406 conditional-mismatch branches of
verifyNID (lines 108-130 and 166-189 of nidService.js). -/
def mk406Result (body : JValue) : VResult :=
  { success := true
    verified := jsOr (getField body "verified") (.bool false)
    data := jsOr (getField body "data") (.obj [])
    fieldVerificationResult := jsOr (getField body "fieldVerificationResult")
      (.obj [("nameEn", .bool false), ("dateOfBirth", .bool false)])
    message := some "NID found but verification data does not match" }

/-- `if (result.data.photo) await this.processPhoto(result.data)`. -/
def finishResult (v : VResult) (parse : ParseUrl) (fetch : FetchOutcome) : VResult :=
  if truthyO (getField v.data "photo") then
    { v with data := processPhoto v.data parse fetch }
  else v

/-- The environment of one verification HTTP attempt: the registry
response plus the oracles consumed if a photo is then inlined. -/
structure Attempt where
  verifyResp : NetOutcome
  photoParse : ParseUrl
  photoFetch : FetchOutcome
deriving Repr

/-- Observable outcome of one verifyNID call: the resolved result or the
thrown error, the service state afterwards, and how many login and
verification exchanges were issued. -/
structure RunOut where
  result : Except JSError VResult
  state : SvcState
  authCalls : Nat
  verifyCalls : Nat
deriving Repr

/-- Rethrow of the outer catch block:
`throw new Error('NID verification failed: ' + error.message)` (a plain
error, so no response travels with it). -/
def wrapFailure (e : JSError) : JSError :=
  ⟨"NID verification failed: " ++ e.message, none⟩

/-- verifyNID(nid, dateOfBirth, nameEn) of nidService.js over an explicit
environment: `auths` are the successive outcomes of login requests,
`attempts` the successive outcomes of verification requests (with their
photo oracles).  The catch block is inlined at each throw site with the
response attachment that site produces: axios attaches the response
exactly when a response with status >= 500 arrived (all smaller statuses
are accepted by the validateStatus option and do not reject), every
other thrown error carries none.  The recursive re-verification of the
401 branch is bounded by `fuel`, mirroring the unbounded recursion of
the source; the fuel-exhaustion value is irrelevant because the branch
requires an error that both carries a response and has status 401,
which no throw site produces. -/
def verifyNIDGo (nid dateOfBirth nameEn : String) (now : Nat) :
    Nat → SvcState → List NetOutcome → List Attempt → RunOut
  | 0, st, _, _ =>
    { result := .error ⟨"NID verification failed: recursion limit reached", none⟩,
      state := st, authCalls := 0, verifyCalls := 0 }
  | fuel + 1, st, auths, attempts =>
    match ensureValidToken st now auths with
    | (.error e, _, ac) =>
      { result := .error (wrapFailure e), state := st, authCalls := ac, verifyCalls := 0 }
    | (.ok st1, auths1, ac) =>
      let a := attempts.headD ⟨.netError "timeout of 30000ms exceeded", .err, .err "no fetch"⟩
      let rest := attempts.tail
      match a.verifyResp with
      | .netError m =>
        { result := .error (wrapFailure ⟨m, none⟩), state := st1,
          authCalls := ac, verifyCalls := 1 }
      | .resp r =>
        if r.status ≥ 500 then
          -- axios rejected: the catch block sees error.response = r
          if r.status = 401 then
            let sub := verifyNIDGo nid dateOfBirth nameEn now fuel
              { accessToken := .null, tokenExpiry := none } auths1 rest
            { sub with authCalls := ac + sub.authCalls, verifyCalls := 1 + sub.verifyCalls }
          else if r.status = 406 then
            { result := .ok (finishResult (mk406Result r.data) a.photoParse a.photoFetch),
              state := st1, authCalls := ac, verifyCalls := 1 }
          else
            { result := .error (wrapFailure ⟨axiosErrMsg r.status, some r⟩),
              state := st1, authCalls := ac, verifyCalls := 1 }
        else if r.status = 406 then
          { result := .ok (finishResult (mk406Result r.data) a.photoParse a.photoFetch),
            state := st1, authCalls := ac, verifyCalls := 1 }
        else if isOKStatus r.data then
          { result := .ok (finishResult (mkOKResult r.data) a.photoParse a.photoFetch),
            state := st1, authCalls := ac, verifyCalls := 1 }
        else
          { result := .error (wrapFailure
              ⟨"Verification failed: " ++
                jsTemplate (jsOr (getField r.data "statusCode") (.str "Unknown error")), none⟩),
            state := st1, authCalls := ac, verifyCalls := 1 }

/-
Embedding of sanitizeResponseData from the request-logger middleware
(value level): the source deep-copies its argument and then mutates the
copy at fixed paths; this function computes the value it returns.
-/

/-- The redaction marker written over data.personDetails.photo and
data.photo. -/
def photoMarker : String := "[PHOTO_DATA_REMOVED_FOR_STORAGE]"

/-- The field names swept by the large-field loop of
sanitizeResponseData. -/
def largeFields : List String := ["image", "photo", "picture", "avatar", "signature"]

/-- Condition of the large-field loop: the value is a truthy string that
starts with the embedded-data marker "data:". -/
def isDataStr (o : Option JValue) : Bool :=
  match o with
  | some (.str s) => decide (s ≠ "") && strStartsWith s "data:"
  | _ => false

/-- One iteration of the large-field loop of sanitizeResponseData. -/
def sanitizeLargeField (t : JValue) (f : String) : JValue :=
  if truthyO (getPath t ["data"]) && isDataStr (getPath t ["data", f]) then
    setPath t ["data", f] (.str ("[" ++ strToUpper f ++ "_DATA_REMOVED_FOR_STORAGE]"))
  else t

/-- The data.personDetails.photo pass of sanitizeResponseData. -/
def sanStepPDJ (t : JValue) : JValue :=
  if truthyO (getPath t ["data"]) &&
      truthyO (getPath t ["data", "personDetails"]) &&
      truthyO (getPath t ["data", "personDetails", "photo"]) then
    setPath t ["data", "personDetails", "photo"] (.str photoMarker)
  else t

/-- The data.photo pass of sanitizeResponseData. -/
def sanStepDataJ (t : JValue) : JValue :=
  if truthyO (getPath t ["data"]) && truthyO (getPath t ["data", "photo"]) then
    setPath t ["data", "photo"] (.str photoMarker)
  else t

/-- sanitizeResponseData (value level): non-objects pass through; for an
object, data.personDetails.photo and data.photo are overwritten with the
photo marker when truthy, then each of the five large fields directly
under data is overwritten with its own marker when it is a string
starting with "data:". -/
def sanitizeResponseData (data : JValue) : JValue :=
  match data with
  | .obj fs => largeFields.foldl sanitizeLargeField (sanStepDataJ (sanStepPDJ (.obj fs)))
  | other => other

/-
Embedding of the audit sink (requestLogger middleware): the overridden
res.send schedules logRequestToDatabase without awaiting it and then
forwards the response body to the original send.  logRequestToDatabase
wraps all of its work, including the database insert, in a try/catch
whose catch only logs.  The database outcome is an oracle.
-/

/-- Per-request data read from the request object. -/
structure ReqInfo where
  ip : Option String
  systemName : Option String
  nid : Option String
  dateOfBirth : Option String
  nameEn : Option String
deriving Repr

/-- Outcome of the INSERT issued by db.run. -/
inductive DbOutcome where
  | ok : DbOutcome
  | fail (msg : String) : DbOutcome
deriving Repr

/-- The row bound to the INSERT INTO request_logs statement. -/
structure LogRow where
  requestId : String
  clientIp : String
  systemName : String
  nid : String
  requestNid : Option String
  requestDateOfBirth : Option String
  requestNameEn : Option String
  responseData : Option JValue
  status : String
  errorMessage : Option String
  processingTimeMs : Nat
deriving Repr

/-- What became of the audit write: the row was inserted, or the failure
was caught and logged.  No constructor propagates an error. -/
inductive AuditEffect where
  | inserted (row : LogRow) : AuditEffect
  | loggedError (msg : String) : AuditEffect
deriving Repr

/-- The row construction of logRequestToDatabase (the captured response
body is taken already JSON-parsed; the middleware sanitizes it before
storage). -/
def buildLogRow (req : ReqInfo) (statusCode : Nat) (responseData : Option JValue)
    (processingTime : Nat) (requestId : String) : LogRow :=
  { requestId := requestId
    clientIp := req.ip.getD "unknown"
    systemName := req.systemName.getD "unknown"
    nid := req.nid.getD "N/A"
    requestNid := req.nid
    requestDateOfBirth := req.dateOfBirth
    requestNameEn := req.nameEn
    responseData := responseData.map sanitizeResponseData
    status := if statusCode < 400 then "SUCCESS" else "ERROR"
    errorMessage := if statusCode ≥ 400 then (responseData.map jsTemplate) else none
    processingTimeMs := processingTime }

/-- logRequestToDatabase: the whole body runs inside try/catch, so a
database failure becomes a logged message, never a thrown error. -/
def logRequestToDatabase (req : ReqInfo) (statusCode : Nat)
    (responseData : Option JValue) (processingTime : Nat) (requestId : String)
    (dbo : DbOutcome) : AuditEffect :=
  match dbo with
  | .ok => .inserted (buildLogRow req statusCode responseData processingTime requestId)
  | .fail m => .loggedError ("Failed to log request to database: " ++ m)

/-- What the overridden res.send produces: the body handed to the
original send (what the caller receives) and the fire-and-forget audit
effect. -/
structure SendOut where
  toCaller : JValue
  audit : AuditEffect
deriving Repr

/-- The res.send override installed by requestLogger: it schedules the
audit write (not awaited) and forwards the body unchanged to the
original send, whatever the database does. -/
def sendOverride (req : ReqInfo) (statusCode : Nat) (body : JValue)
    (processingTime : Nat) (requestId : String) (dbo : DbOutcome) : SendOut :=
  { toCaller := body
    audit := logRequestToDatabase req statusCode (some body) processingTime requestId dbo }

/-
Interleaving model for concurrent callers of ensureValidToken.  Each
caller runs the JS body: the token check together with dispatching the
login request is one synchronous step (nothing yields between them),
completion of the login response is a later step.  A schedule is a list
of indexed steps over the shared service state.
-/

/-- Progress of one concurrent caller through ensureValidToken. -/
inductive Phase where
  | ready : Phase
  | waiting : Phase
  | done : Phase
deriving Repr, DecidableEq

/-- Shared state plus per-caller phases and the number of login
exchanges dispatched so far. -/
structure CCState where
  st : SvcState
  phases : List Phase
  loginCalls : Nat
deriving Repr

/-- One scheduled step: caller `i` runs its synchronous prefix (check
and, if needed, dispatch), or caller `i` receives its login response. -/
inductive Move where
  | check (i : Nat) : Move
  | complete (i : Nat) : Move
deriving Repr

/-- The synchronous prefix of ensureValidToken for caller `i`: observe
the shared credential; if absent/expired, dispatch a login exchange and
suspend, otherwise finish immediately. -/
def doCheck (now : Nat) (s : CCState) (i : Nat) : CCState :=
  match s.phases[i]? with
  | some .ready =>
    if needsAuth s.st now then
      { s with phases := s.phases.set i .waiting, loginCalls := s.loginCalls + 1 }
    else
      { s with phases := s.phases.set i .done }
  | _ => s

/-- Completion of caller `i`: its login response arrives and the shared
credential is stored. -/
def doComplete (now : Nat) (tok : String) (s : CCState) (i : Nat) : CCState :=
  match s.phases[i]? with
  | some .waiting =>
    { st := ⟨.str tok, some (now + 60 * 60 * 1000)⟩,
      phases := s.phases.set i .done, loginCalls := s.loginCalls }
  | _ => s

/-- Run a schedule of steps from a state. -/
def runSchedule (now : Nat) (tok : String) (s : CCState) : List Move → CCState
  | [] => s
  | .check i :: rest => runSchedule now tok (doCheck now s i) rest
  | .complete i :: rest => runSchedule now tok (doComplete now tok s i) rest

/-- N concurrent callers, no cached credential. -/
def initCC (n : Nat) : CCState :=
  { st := ⟨.null, none⟩, phases := List.replicate n .ready, loginCalls := 0 }

/-- The schedule step list [check 0, ..., check (n-1)]. -/
def checksUpTo : Nat → List Move
  | 0 => []
  | n + 1 => checksUpTo n ++ [.check n]

/-- The schedule step list [complete 0, ..., complete (n-1)]. -/
def completesUpTo : Nat → List Move
  | 0 => []
  | n + 1 => completesUpTo n ++ [.complete n]

/-
Heap-level embedding of sanitizeResponseData.  JS objects live in a
store addressed by allocation order; object values are references.  The
deep copy of the source is exactly JSON.parse(JSON.stringify(data)):
serialize to a JValue, then re-allocate it as fresh objects.  The three
sanitization passes then mutate the copy in place.  This makes the
frame property of the original argument a real statement.
-/

/-- A runtime JS value: a primitive or a reference into the store. -/
inductive HVal where
  | null : HVal
  | bool (b : Bool) : HVal
  | str (s : String) : HVal
  | num (n : Int) : HVal
  | ref (a : Nat) : HVal
deriving Repr, DecidableEq

/-- An allocated object: its property list. -/
abbrev HObj := List (String × HVal)

/-- The object store; the address of an object is its index, allocation
appends. -/
abbrev Store := List HObj

mutual
/-- JSON.stringify: serialize a value, following references; the fuel
bounds the depth (stringify throws on cyclic structures, which
serializable inputs exclude). -/
def toJson (h : Store) : Nat → HVal → Option JValue
  | 0, _ => none
  | _ + 1, .null => some .null
  | _ + 1, .bool b => some (.bool b)
  | _ + 1, .str s => some (.str s)
  | _ + 1, .num n => some (.num n)
  | fuel + 1, .ref a =>
    match h[a]? with
    | none => none
    | some o => (toJsonFields h fuel o).map JValue.obj

/-- JSON.stringify over a property list. -/
def toJsonFields (h : Store) : Nat → HObj → Option (List (String × JValue))
  | 0, _ => none
  | _ + 1, [] => some []
  | fuel + 1, (k, v) :: rest => do
    let jv ← toJson h fuel v
    let r ← toJsonFields h fuel rest
    some ((k, jv) :: r)
end

mutual
/-- JSON.parse: allocate a parsed document as fresh objects. -/
def fromJson : JValue → Store → HVal × Store
  | .null, h => (.null, h)
  | .bool b, h => (.bool b, h)
  | .str s, h => (.str s, h)
  | .num n, h => (.num n, h)
  | .obj fs, h =>
    let p := fromJsonFields fs h
    (.ref p.2.length, p.2 ++ [p.1])

/-- JSON.parse over a field list. -/
def fromJsonFields : List (String × JValue) → Store → HObj × Store
  | [], h => ([], h)
  | (k, v) :: rest, h =>
    let p := fromJson v h
    let q := fromJsonFields rest p.2
    ((k, p.1) :: q.1, q.2)
end

/-- Property lookup in an allocated object. -/
def lookupKeyH : HObj → String → Option HVal
  | [], _ => none
  | (k, v) :: rest, key => if k = key then some v else lookupKeyH rest key

/-- Property access through the store: defined only on references. -/
def getFieldH (h : Store) (v : HVal) (k : String) : Option HVal :=
  match v with
  | .ref a =>
    match h[a]? with
    | some o => lookupKeyH o k
    | none => none
  | _ => none

/-- Chained property access through the store. -/
def getPathH (h : Store) (v : HVal) : List String → Option HVal
  | [] => some v
  | k :: rest =>
    match getFieldH h v k with
    | some w => getPathH h w rest
    | none => none

/-- JS truthiness of a runtime value (object references are truthy). -/
def truthyH : HVal → Bool
  | .null => false
  | .bool b => b
  | .str s => decide (s ≠ "")
  | .num n => decide (n ≠ 0)
  | .ref _ => true

/-- Truthiness of a possibly-undefined runtime value. -/
def truthyHO (o : Option HVal) : Bool :=
  match o with
  | some v => truthyH v
  | none => false

/-- Replace (or append) a property of an allocated object. -/
def setAtKeyH (o : HObj) (key : String) (x : HVal) : HObj :=
  match o with
  | [] => [(key, x)]
  | (k, v) :: rest =>
    if k = key then (k, x) :: rest else (k, v) :: setAtKeyH rest key x

/-- In-place property assignment `(ref a).k = x` on the store. -/
def setFieldH (h : Store) (a : Nat) (k : String) (x : HVal) : Store :=
  match h[a]? with
  | some o => h.set a (setAtKeyH o k x)
  | none => h

/-- Large-field loop condition on a runtime value. -/
def isDataStrH (o : Option HVal) : Bool :=
  match o with
  | some (.str s) => decide (s ≠ "") && strStartsWith s "data:"
  | _ => false

/-- The data.personDetails.photo pass of sanitizeResponseData, as a
store mutation on the copy rooted at `root`. -/
def sanStepPD (root : HVal) (h : Store) : Store :=
  if truthyHO (getPathH h root ["data"]) &&
      truthyHO (getPathH h root ["data", "personDetails"]) &&
      truthyHO (getPathH h root ["data", "personDetails", "photo"]) then
    match getPathH h root ["data", "personDetails"] with
    | some (.ref a) => setFieldH h a "photo" (.str photoMarker)
    | _ => h
  else h

/-- The data.photo pass of sanitizeResponseData. -/
def sanStepData (root : HVal) (h : Store) : Store :=
  if truthyHO (getPathH h root ["data"]) &&
      truthyHO (getPathH h root ["data", "photo"]) then
    match getPathH h root ["data"] with
    | some (.ref a) => setFieldH h a "photo" (.str photoMarker)
    | _ => h
  else h

/-- One iteration of the large-field loop of sanitizeResponseData. -/
def sanStepLarge (root : HVal) (h : Store) (f : String) : Store :=
  if truthyHO (getPathH h root ["data"]) &&
      isDataStrH (getPathH h root ["data", f]) then
    match getPathH h root ["data"] with
    | some (.ref a) =>
      setFieldH h a f (.str ("[" ++ strToUpper f ++ "_DATA_REMOVED_FOR_STORAGE]"))
    | _ => h
  else h

/-- sanitizeResponseData at the store level: non-objects pass through;
an object is deep-copied by a JSON round trip and the three passes then
mutate only the copy.  Returns the store afterwards and the returned
(copy) value. -/
def sanitizeResponseDataH (fuel : Nat) (h : Store) (v : HVal) : Store × HVal :=
  match v with
  | .ref a0 =>
    match toJson h fuel (.ref a0) with
    | none => (h, .ref a0)
    | some j =>
      let p := fromJson j h
      let h1 := sanStepPD p.1 p.2
      let h2 := sanStepData p.1 h1
      let h3 := largeFields.foldl (sanStepLarge p.1) h2
      (h3, p.1)
  | other => (h, other)

/-- Every reference stored at or above address `n` points at or above
`n` (the fresh region is closed: it never points back into the original
graph). -/
def RegionFresh (n : Nat) (h : Store) : Prop :=
  ∀ a, n ≤ a → ∀ o, h[a]? = some o → ∀ k b, (k, HVal.ref b) ∈ o → n ≤ b

/-- Addresses below `n` read the same in `h` as in `h0`. -/
def LowUnchanged (n : Nat) (h0 h : Store) : Prop :=
  ∀ a, a < n → h[a]? = h0[a]?

/-
Concrete fixtures used by the closed theorems below.
-/

/-- A cached, unexpired credential (token present, expiry at time 1000). -/
def stCached : SvcState := ⟨.str "tok0", some 1000⟩

/-- A body the registry sends along an HTTP 401 response. -/
def body401 : JValue := .obj [("statusCode", .num 401)]

/-- A verification attempt answered with HTTP 401. -/
def attempt401 : Attempt := ⟨.resp ⟨401, body401⟩, .err, .err "unused"⟩

/-- The person details of the section-6 full-match wire example. -/
def fullMatchDetails : JValue :=
  .obj [("nationalId", .str "2360000000"), ("pin", .str "12345678901234567")]

/-- The section-6 full-match response body: `{status:"OK",
success:{verified:true, data:{...}, fieldVerificationResult:{nameEn:true,
dateOfBirth:true}}}`. -/
def fullMatchBody : JValue :=
  .obj [("status", .str "OK"),
        ("success", .obj
          [("verified", .bool true),
           ("data", fullMatchDetails),
           ("fieldVerificationResult",
             .obj [("nameEn", .bool true), ("dateOfBirth", .bool true)])])]

/-- A conditional-mismatch (HTTP 406) body carrying `verified: true` and
an empty `fieldVerificationResult` object. -/
def mismatchBody : JValue :=
  .obj [("verified", .bool true), ("fieldVerificationResult", .obj [])]

/-- A full wire body whose person details carry a remote photo URL. -/
def okPhotoBody : JValue :=
  .obj [("status", .str "OK"),
        ("success", .obj [("data", .obj [("photo", .str "http://host/p.jpg")])])]

/-- A response whose nested person details hold a photo and a signature,
both as data URLs. -/
def sanExample : JValue :=
  .obj [("data", .obj
    [("personDetails", .obj
      [("photo", .str "data:image/jpeg;base64,AAA"),
       ("signature", .str "data:image/png;base64,BBB")])])]

/-- The store holding `sanExample` as allocated objects; address 2 is
the response root. -/
def storeExample : Store :=
  [[("photo", .str "data:image/jpeg;base64,AAA"),
    ("signature", .str "data:image/png;base64,BBB")],
   [("personDetails", .ref 0)],
   [("data", .ref 1)]]

/-
Path lemmas for JValue updates.
-/

theorem getPath_cons_some {v : JValue} {k : String} {w : JValue}
    (h : getField v k = some w) (p : List String) :
    getPath v (k :: p) = getPath w p := by
  show (match getField v k with | some u => getPath u p | none => none) = getPath w p
  rw [h]

theorem getPath_cons_none {v : JValue} {k : String}
    (h : getField v k = none) (p : List String) :
    getPath v (k :: p) = none := by
  show (match getField v k with | some u => getPath u p | none => none) = none
  rw [h]

theorem getPath_congr_head {v v2 : JValue} (k : String)
    (h : getField v k = getField v2 k) (p : List String) :
    getPath v (k :: p) = getPath v2 (k :: p) := by
  show (match getField v k with | some u => getPath u p | none => none) =
    (match getField v2 k with | some u => getPath u p | none => none)
  rw [h]

theorem getPath_obj_nil_cons (k : String) (p : List String) :
    getPath (.obj []) (k :: p) = none := by
  simp [getPath, getField, lookupKeyJ]

theorem lookupKeyJ_setAtKeyJ_self (fs : List (String × JValue)) (k : String)
    (f : JValue → JValue) (a : JValue) :
    lookupKeyJ (setAtKeyJ fs k f a) k =
      some (match lookupKeyJ fs k with | some w => f w | none => a) := by
  induction fs with
  | nil => simp [setAtKeyJ, lookupKeyJ]
  | cons p rest ih =>
    obtain ⟨k0, v0⟩ := p
    by_cases hk : k0 = k
    · subst hk
      simp [setAtKeyJ, lookupKeyJ]
    · simp [setAtKeyJ, lookupKeyJ, hk, ih]

theorem lookupKeyJ_setAtKeyJ_ne (fs : List (String × JValue)) {k k2 : String}
    (hk : k2 ≠ k) (f : JValue → JValue) (a : JValue) :
    lookupKeyJ (setAtKeyJ fs k f a) k2 = lookupKeyJ fs k2 := by
  have hk2 : ¬ (k = k2) := fun h => hk h.symm
  induction fs with
  | nil => simp [setAtKeyJ, lookupKeyJ, hk2]
  | cons p rest ih =>
    obtain ⟨k0, v0⟩ := p
    by_cases hk0 : k0 = k
    · subst hk0
      simp [setAtKeyJ, lookupKeyJ, hk2]
    · simp only [setAtKeyJ, if_neg hk0, lookupKeyJ]
      by_cases hk02 : k0 = k2
      · simp [hk02]
      · simp [hk02, ih]

theorem getField_setPath_cons_self {v : JValue} {k : String} {w : JValue}
    (hv : getField v k = some w) (p : List String) (x : JValue) :
    getField (setPath v (k :: p) x) k = some (setPath w p x) := by
  cases v with
  | obj fs =>
    simp only [getField] at hv
    show lookupKeyJ (setAtKeyJ fs k (fun old => setPath old p x)
      (setPath (.obj []) p x)) k = some (setPath w p x)
    rw [lookupKeyJ_setAtKeyJ_self, hv]
  | null => simp [getField] at hv
  | bool b => simp [getField] at hv
  | str s => simp [getField] at hv
  | num n => simp [getField] at hv

theorem getField_setPath_cons_ne (v : JValue) {k k2 : String} (hk : k2 ≠ k)
    (p : List String) (x : JValue) :
    getField (setPath v (k :: p) x) k2 = getField v k2 := by
  cases v with
  | obj fs =>
    show lookupKeyJ (setAtKeyJ fs k (fun old => setPath old p x)
      (setPath (.obj []) p x)) k2 = lookupKeyJ fs k2
    rw [lookupKeyJ_setAtKeyJ_ne fs hk]
  | null => rfl
  | bool b => rfl
  | str s => rfl
  | num n => rfl

theorem getPath_cons_inv {v : JValue} {k : String} {p : List String} {w : JValue}
    (h : getPath v (k :: p) = some w) :
    ∃ u, getField v k = some u ∧ getPath u p = some w := by
  cases hg : getField v k with
  | none => rw [getPath_cons_none hg] at h; exact absurd h (by simp)
  | some u => rw [getPath_cons_some hg] at h; exact ⟨u, rfl, h⟩

theorem getPath_setPath_self : ∀ (p : List String) (v w x : JValue),
    getPath v p = some w → getPath (setPath v p x) p = some x
  | [], v, w, x, _ => rfl
  | k :: rest, v, w, x, hv => by
    obtain ⟨u, hg, hu⟩ := getPath_cons_inv hv
    rw [getPath_cons_some (getField_setPath_cons_self hg rest x) rest]
    exact getPath_setPath_self rest u w x hu

theorem getPath_setPath_diverge : ∀ (p : List String) {k g : String}, k ≠ g →
    ∀ (ps qs : List String) (t x : JValue),
      getPath (setPath t (p ++ k :: ps) x) (p ++ g :: qs) = getPath t (p ++ g :: qs)
  | [], k, g, hkg, ps, qs, t, x => by
    cases t with
    | obj fs =>
      exact getPath_congr_head g
        (getField_setPath_cons_ne _ (fun h => hkg h.symm) ps x) qs
    | null => rfl
    | bool b => rfl
    | str s => rfl
    | num n => rfl
  | k0 :: p2, k, g, hkg, ps, qs, t, x => by
    cases t with
    | obj fs =>
      simp only [List.cons_append]
      cases hg0 : getField (JValue.obj fs) k0 with
      | some u =>
        rw [getPath_cons_some (getField_setPath_cons_self hg0 (p2 ++ k :: ps) x) (p2 ++ g :: qs)]
        rw [getPath_cons_some hg0 (p2 ++ g :: qs)]
        exact getPath_setPath_diverge p2 hkg ps qs u x
      | none =>
        have hset : getField (setPath (.obj fs) (k0 :: (p2 ++ k :: ps)) x) k0
            = some (setPath (.obj []) (p2 ++ k :: ps) x) := by
          simp only [getField] at hg0
          show lookupKeyJ (setAtKeyJ fs k0 (fun old => setPath old (p2 ++ k :: ps) x)
            (setPath (.obj []) (p2 ++ k :: ps) x)) k0 = _
          rw [lookupKeyJ_setAtKeyJ_self, hg0]
        rw [getPath_cons_some hset (p2 ++ g :: qs)]
        rw [getPath_cons_none hg0 (p2 ++ g :: qs)]
        rw [getPath_setPath_diverge p2 hkg ps qs (.obj []) x]
        cases p2 with
        | nil => exact getPath_obj_nil_cons g qs
        | cons k1 p3 => exact getPath_obj_nil_cons k1 (p3 ++ g :: qs)
    | null => rfl
    | bool b => rfl
    | str s => rfl
    | num n => rfl

theorem getField_some_obj {v : JValue} {k : String} {w : JValue}
    (h : getField v k = some w) : truthy v = true := by
  cases v with
  | obj fs => rfl
  | null => simp [getField] at h
  | bool b => simp [getField] at h
  | str s => simp [getField] at h
  | num n => simp [getField] at h

theorem truthy_setPath_obj_cons (fs : List (String × JValue)) (k : String)
    (p : List String) (x : JValue) :
    truthy (setPath (.obj fs) (k :: p) x) = true := rfl

/-
Freshness and frame lemmas for the store-level sanitizer.
-/

mutual
theorem fromJson_spec : ∀ (j : JValue) (h : Store),
    LowUnchanged h.length h (fromJson j h).2 ∧
    h.length ≤ (fromJson j h).2.length ∧
    (∀ n, n ≤ h.length → RegionFresh n h → RegionFresh n (fromJson j h).2) ∧
    (∀ b, (fromJson j h).1 = HVal.ref b → h.length ≤ b)
  | .null, h => by
    refine ⟨fun a ha => rfl, le_refl _, fun n hn hr => hr, fun b hb => by simp [fromJson] at hb⟩
  | .bool b0, h => by
    refine ⟨fun a ha => rfl, le_refl _, fun n hn hr => hr, fun b hb => by simp [fromJson] at hb⟩
  | .str s, h => by
    refine ⟨fun a ha => rfl, le_refl _, fun n hn hr => hr, fun b hb => by simp [fromJson] at hb⟩
  | .num n0, h => by
    refine ⟨fun a ha => rfl, le_refl _, fun n hn hr => hr, fun b hb => by simp [fromJson] at hb⟩
  | .obj fs, h => by
    obtain ⟨l1, n1, r1, f1⟩ := fromJsonFields_spec fs h
    have hfj2 : (fromJson (.obj fs) h).2 =
        (fromJsonFields fs h).2 ++ [(fromJsonFields fs h).1] := by
      simp [fromJson]
    have hfj1 : (fromJson (.obj fs) h).1 = HVal.ref (fromJsonFields fs h).2.length := by
      simp [fromJson]
    rw [hfj1, hfj2]
    refine ⟨?_, ?_, ?_, ?_⟩
    · intro a ha
      have ha2 : a < (fromJsonFields fs h).2.length := lt_of_lt_of_le ha n1
      rw [List.getElem?_append_left ha2]
      exact l1 a ha
    · simp
      omega
    · intro n hn hr a hna o ho k b hmem
      by_cases hlt : a < (fromJsonFields fs h).2.length
      · rw [List.getElem?_append_left hlt] at ho
        exact r1 n hn hr a hna o ho k b hmem
      · push_neg at hlt
        rw [List.getElem?_append_right hlt] at ho
        have hoeq : o = (fromJsonFields fs h).1 := by
          cases hd : a - (fromJsonFields fs h).2.length with
          | zero => rw [hd] at ho; simp at ho; exact ho.symm
          | succ m => rw [hd] at ho; simp at ho
        subst hoeq
        exact le_trans hn (f1 k (HVal.ref b) hmem b rfl)
    · intro b hb
      have : b = (fromJsonFields fs h).2.length := by
        injection hb with hb2
        exact hb2.symm
      omega

theorem fromJsonFields_spec : ∀ (fs : List (String × JValue)) (h : Store),
    LowUnchanged h.length h (fromJsonFields fs h).2 ∧
    h.length ≤ (fromJsonFields fs h).2.length ∧
    (∀ n, n ≤ h.length → RegionFresh n h → RegionFresh n (fromJsonFields fs h).2) ∧
    (∀ k w, (k, w) ∈ (fromJsonFields fs h).1 → ∀ b, w = HVal.ref b → h.length ≤ b)
  | [], h => by
    refine ⟨fun a ha => rfl, le_refl _, fun n hn hr => hr,
      fun k w hw => by simp [fromJsonFields] at hw⟩
  | (k0, v0) :: rest, h => by
    obtain ⟨l1, n1, r1, f1⟩ := fromJson_spec v0 h
    obtain ⟨l2, n2, r2, f2⟩ := fromJsonFields_spec rest (fromJson v0 h).2
    have hfj2 : (fromJsonFields ((k0, v0) :: rest) h).2 =
        (fromJsonFields rest (fromJson v0 h).2).2 := by
      simp [fromJsonFields]
    have hfj1 : (fromJsonFields ((k0, v0) :: rest) h).1 =
        (k0, (fromJson v0 h).1) :: (fromJsonFields rest (fromJson v0 h).2).1 := by
      simp [fromJsonFields]
    rw [hfj1, hfj2]
    refine ⟨?_, ?_, ?_, ?_⟩
    · intro a ha
      rw [l2 a (lt_of_lt_of_le ha n1), l1 a ha]
    · exact le_trans n1 n2
    · intro n hn hr
      exact r2 n (le_trans hn n1) (r1 n hn hr)
    · intro k w hw b hb
      rcases List.mem_cons.mp hw with heq | hmem
      · have hw2 : w = (fromJson v0 h).1 := congrArg Prod.snd heq
        exact f1 b (hw2 ▸ hb)
      · exact le_trans n1 (f2 k w hmem b hb)
end

theorem regionFresh_self (h : Store) : RegionFresh h.length h := by
  intro a ha o ho
  rw [List.getElem?_eq_none_iff.mpr ha] at ho
  exact absurd ho (by simp)

theorem lowUnchanged_trans {n : Nat} {h0 h1 h2 : Store}
    (a1 : LowUnchanged n h0 h1) (a2 : LowUnchanged n h1 h2) : LowUnchanged n h0 h2 := by
  intro a ha
  rw [a2 a ha, a1 a ha]

theorem lookupKeyH_mem : ∀ (o : HObj) (k : String) (w : HVal),
    lookupKeyH o k = some w → (k, w) ∈ o
  | [], k, w, hw => by simp [lookupKeyH] at hw
  | (k0, v0) :: rest, k, w, hw => by
    by_cases hk : k0 = k
    · subst hk
      simp [lookupKeyH] at hw
      subst hw
      exact List.mem_cons_self _ _
    · simp [lookupKeyH, hk] at hw
      exact List.mem_cons_of_mem _ (lookupKeyH_mem rest k w hw)

theorem getFieldH_fresh {n : Nat} {h : Store} (hr : RegionFresh n h) {v : HVal}
    (hv : ∀ a, v = HVal.ref a → n ≤ a) {k : String} {w : HVal}
    (hg : getFieldH h v k = some w) : ∀ b, w = HVal.ref b → n ≤ b := by
  intro b hb
  subst hb
  cases v with
  | ref a =>
    have ha : n ≤ a := hv a rfl
    simp only [getFieldH] at hg
    cases ho : h[a]? with
    | none => rw [ho] at hg; exact absurd hg (by simp)
    | some o =>
      rw [ho] at hg
      exact hr a ha o ho k b (lookupKeyH_mem o k _ hg)
  | null => simp [getFieldH] at hg
  | bool bb => simp [getFieldH] at hg
  | str s => simp [getFieldH] at hg
  | num nn => simp [getFieldH] at hg

theorem getPathH_fresh {n : Nat} {h : Store} (hr : RegionFresh n h) :
    ∀ (p : List String) (v : HVal), (∀ a, v = HVal.ref a → n ≤ a) →
      ∀ w, getPathH h v p = some w → ∀ b, w = HVal.ref b → n ≤ b
  | [], v, hv, w, hw, b, hb => by
    simp [getPathH] at hw
    subst hw
    exact hv b hb
  | k :: rest, v, hv, w, hw, b, hb => by
    unfold getPathH at hw
    cases hg : getFieldH h v k with
    | none => rw [hg] at hw; exact absurd hw (by simp)
    | some u =>
      rw [hg] at hw
      exact getPathH_fresh hr rest u (fun a ha => getFieldH_fresh hr hv hg a ha) w hw b hb

theorem mem_setAtKeyH : ∀ {o : HObj} {k : String} {x : HVal} {k2 : String} {w : HVal},
    (k2, w) ∈ setAtKeyH o k x → (k2, w) ∈ o ∨ w = x := by
  intro o
  induction o with
  | nil =>
    intro k x k2 w hw
    simp [setAtKeyH] at hw
    exact Or.inr hw.2
  | cons p rest ih =>
    intro k x k2 w hw
    obtain ⟨k0, v0⟩ := p
    by_cases hk : k0 = k
    · simp [setAtKeyH, hk] at hw
      rcases hw with ⟨h1, h2⟩ | hmem
      · exact Or.inr h2
      · exact Or.inl (List.mem_cons_of_mem _ hmem)
    · simp only [setAtKeyH, if_neg hk] at hw
      rcases List.mem_cons.mp hw with heq | hmem
      · exact Or.inl (heq ▸ List.mem_cons_self _ _)
      · rcases ih hmem with hin | hx
        · exact Or.inl (List.mem_cons_of_mem _ hin)
        · exact Or.inr hx

theorem setFieldH_low {n : Nat} (h : Store) (a : Nat) (k : String) (x : HVal)
    (ha : n ≤ a) : LowUnchanged n h (setFieldH h a k x) := by
  intro b hb
  unfold setFieldH
  cases ho : h[a]? with
  | none => rfl
  | some o => exact List.getElem?_set_ne (by omega)

theorem setFieldH_fresh {n : Nat} {h : Store} (hr : RegionFresh n h) (a : Nat)
    (k : String) (x : HVal) (hx : ∀ b, x = HVal.ref b → n ≤ b) :
    RegionFresh n (setFieldH h a k x) := by
  intro c hc o2 ho2 k2 b hmem
  unfold setFieldH at ho2
  cases ho : h[a]? with
  | none => rw [ho] at ho2; exact hr c hc o2 ho2 k2 b hmem
  | some o =>
    rw [ho] at ho2
    by_cases hca : c = a
    · subst hca
      have hlen : c < h.length := by
        by_contra hcon
        push_neg at hcon
        rw [List.getElem?_eq_none_iff.mpr hcon] at ho
        exact absurd ho (by simp)
      rw [List.getElem?_set_self (by omega)] at ho2
      have hoeq : o2 = setAtKeyH o k x := by
        injection ho2 with h2
        exact h2.symm
      subst hoeq
      rcases mem_setAtKeyH hmem with hin | hxeq
      · exact hr c hc o ho k2 b hin
      · exact hx b hxeq.symm
    · rw [List.getElem?_set_ne (by omega)] at ho2
      exact hr c hc o2 ho2 k2 b hmem

theorem sanStepPD_spec {n : Nat} {h : Store} {root : HVal} (hr : RegionFresh n h)
    (hroot : ∀ a, root = HVal.ref a → n ≤ a) :
    LowUnchanged n h (sanStepPD root h) ∧ RegionFresh n (sanStepPD root h) := by
  unfold sanStepPD
  split
  · cases hm : getPathH h root ["data", "personDetails"] with
    | none => exact ⟨fun a ha => rfl, hr⟩
    | some w =>
      cases w with
      | ref a =>
        have ha : n ≤ a := getPathH_fresh hr _ root hroot _ hm a rfl
        exact ⟨setFieldH_low h a _ _ ha, setFieldH_fresh hr a _ _ (by intro b hb; simp at hb)⟩
      | null => exact ⟨fun a ha => rfl, hr⟩
      | bool b => exact ⟨fun a ha => rfl, hr⟩
      | str s => exact ⟨fun a ha => rfl, hr⟩
      | num m => exact ⟨fun a ha => rfl, hr⟩
  · exact ⟨fun a ha => rfl, hr⟩

theorem sanStepData_spec {n : Nat} {h : Store} {root : HVal} (hr : RegionFresh n h)
    (hroot : ∀ a, root = HVal.ref a → n ≤ a) :
    LowUnchanged n h (sanStepData root h) ∧ RegionFresh n (sanStepData root h) := by
  unfold sanStepData
  split
  · cases hm : getPathH h root ["data"] with
    | none => exact ⟨fun a ha => rfl, hr⟩
    | some w =>
      cases w with
      | ref a =>
        have ha : n ≤ a := getPathH_fresh hr _ root hroot _ hm a rfl
        exact ⟨setFieldH_low h a _ _ ha, setFieldH_fresh hr a _ _ (by intro b hb; simp at hb)⟩
      | null => exact ⟨fun a ha => rfl, hr⟩
      | bool b => exact ⟨fun a ha => rfl, hr⟩
      | str s => exact ⟨fun a ha => rfl, hr⟩
      | num m => exact ⟨fun a ha => rfl, hr⟩
  · exact ⟨fun a ha => rfl, hr⟩

theorem sanStepLarge_spec {n : Nat} {h : Store} {root : HVal} (hr : RegionFresh n h)
    (hroot : ∀ a, root = HVal.ref a → n ≤ a) (f : String) :
    LowUnchanged n h (sanStepLarge root h f) ∧ RegionFresh n (sanStepLarge root h f) := by
  unfold sanStepLarge
  split
  · cases hm : getPathH h root ["data"] with
    | none => exact ⟨fun a ha => rfl, hr⟩
    | some w =>
      cases w with
      | ref a =>
        have ha : n ≤ a := getPathH_fresh hr _ root hroot _ hm a rfl
        exact ⟨setFieldH_low h a _ _ ha, setFieldH_fresh hr a _ _ (by intro b hb; simp at hb)⟩
      | null => exact ⟨fun a ha => rfl, hr⟩
      | bool b => exact ⟨fun a ha => rfl, hr⟩
      | str s => exact ⟨fun a ha => rfl, hr⟩
      | num m => exact ⟨fun a ha => rfl, hr⟩
  · exact ⟨fun a ha => rfl, hr⟩

theorem foldl_sanStepLarge_spec {n : Nat} {root : HVal}
    (hroot : ∀ a, root = HVal.ref a → n ≤ a) :
    ∀ (l : List String) {h : Store}, RegionFresh n h →
      LowUnchanged n h (l.foldl (sanStepLarge root) h) ∧
        RegionFresh n (l.foldl (sanStepLarge root) h)
  | [], h, hr => ⟨fun a ha => rfl, hr⟩
  | f :: rest, h, hr => by
    obtain ⟨s1, s2⟩ := sanStepLarge_spec hr hroot f
    obtain ⟨t1, t2⟩ := foldl_sanStepLarge_spec hroot rest s2
    exact ⟨lowUnchanged_trans s1 t1, t2⟩

/-
Schedule lemmas for the concurrent credential-refresh model.
-/

theorem runSchedule_append (now : Nat) (tok : String) :
    ∀ (l1 : List Move) (s : CCState) (l2 : List Move),
      runSchedule now tok s (l1 ++ l2) = runSchedule now tok (runSchedule now tok s l1) l2
  | [], _, _ => rfl
  | .check i :: rest, s, l2 => runSchedule_append now tok rest (doCheck now s i) l2
  | .complete i :: rest, s, l2 => runSchedule_append now tok rest (doComplete now tok s i) l2

theorem getElem?_replicate_append {α : Type} (a : α) (l : List α) (n : Nat) :
    (List.replicate n a ++ l)[n]? = l[0]? := by
  rw [List.getElem?_append_right (by simp)]
  simp

theorem set_replicate_append {α : Type} (a x : α) (l : List α) :
    ∀ n, (List.replicate n a ++ l).set n x = List.replicate n a ++ l.set 0 x
  | 0 => rfl
  | n + 1 => by
    show a :: (List.replicate n a ++ l).set n x = a :: (List.replicate n a ++ l.set 0 x)
    rw [set_replicate_append a x l n]

theorem replicate_middle {α : Type} (a : α) (l : List α) :
    ∀ n, List.replicate n a ++ a :: l = a :: List.replicate n a ++ l
  | 0 => rfl
  | n + 1 => by
    show a :: (List.replicate n a ++ a :: l) = a :: a :: List.replicate n a ++ l
    rw [replicate_middle a l n]
    rfl

theorem needsAuth_null (now : Nat) : needsAuth ⟨.null, none⟩ now = true := rfl

theorem runChecks (now : Nat) (tok : String) (N : Nat) :
    ∀ n, n ≤ N → runSchedule now tok (initCC N) (checksUpTo n) =
      ⟨⟨.null, none⟩, List.replicate n Phase.waiting ++ List.replicate (N - n) Phase.ready, n⟩ := by
  intro n
  induction n with
  | zero =>
    intro hle
    simp [checksUpTo, runSchedule, initCC]
  | succ n ih =>
    intro hle
    have hn : n ≤ N := by omega
    obtain ⟨m, hm⟩ : ∃ m, N - n = m + 1 := ⟨N - n - 1, by omega⟩
    have hm2 : N - (n + 1) = m := by omega
    rw [checksUpTo, runSchedule_append, ih hn]
    show doCheck now ⟨⟨.null, none⟩,
      List.replicate n Phase.waiting ++ List.replicate (N - n) Phase.ready, n⟩ n = _
    have hget : (List.replicate n Phase.waiting ++ List.replicate (N - n) Phase.ready)[n]?
        = some Phase.ready := by
      rw [getElem?_replicate_append, hm]
      simp [List.replicate_succ]
    simp only [doCheck, hget, needsAuth_null, if_pos]
    rw [hm, hm2]
    simp only [List.replicate_succ, set_replicate_append, List.set]
    rw [replicate_middle]

theorem runCompletes (now : Nat) (tok : String) (N : Nat) :
    ∀ n, n ≤ N → ∀ st0 : SvcState, ∃ st2 : SvcState,
      runSchedule now tok ⟨st0, List.replicate N Phase.waiting, N⟩ (completesUpTo n) =
        ⟨st2, List.replicate n Phase.done ++ List.replicate (N - n) Phase.waiting, N⟩ := by
  intro n
  induction n with
  | zero =>
    intro hle st0
    refine ⟨st0, by simp [completesUpTo, runSchedule]⟩
  | succ n ih =>
    intro hle st0
    have hn : n ≤ N := by omega
    obtain ⟨m, hm⟩ : ∃ m, N - n = m + 1 := ⟨N - n - 1, by omega⟩
    have hm2 : N - (n + 1) = m := by omega
    obtain ⟨st2, hst2⟩ := ih hn st0
    refine ⟨⟨.str tok, some (now + 60 * 60 * 1000)⟩, ?_⟩
    rw [completesUpTo, runSchedule_append, hst2]
    show doComplete now tok ⟨st2,
      List.replicate n Phase.done ++ List.replicate (N - n) Phase.waiting, N⟩ n = _
    have hget : (List.replicate n Phase.done ++ List.replicate (N - n) Phase.waiting)[n]?
        = some Phase.waiting := by
      rw [getElem?_replicate_append, hm]
      simp [List.replicate_succ]
    simp only [doComplete, hget]
    rw [hm, hm2]
    simp only [List.replicate_succ, set_replicate_append, List.set]
    rw [replicate_middle]

/-
Helper lemmas about the verification client.
-/

theorem ensureValidToken_cached {st : SvcState} {now : Nat}
    (h : needsAuth st now = false) (auths : List NetOutcome) :
    ensureValidToken st now auths = (.ok st, auths, 0) := by
  simp [ensureValidToken, h]

/-
Helper lemmas about the value-level sanitizer.
-/

theorem sanitizeLargeField_preserves_pd {f : String} (hf : f ≠ "personDetails")
    (t : JValue) (q : List String) :
    getPath (sanitizeLargeField t f) ("data" :: "personDetails" :: q) =
      getPath t ("data" :: "personDetails" :: q) := by
  unfold sanitizeLargeField
  split
  · exact getPath_setPath_diverge ["data"] hf [] q t _
  · rfl

theorem sanitizeLargeField_preserves_data {f g : String} (hf : f ≠ g) (t : JValue) :
    getPath (sanitizeLargeField t f) ["data", g] = getPath t ["data", g] := by
  unfold sanitizeLargeField
  split
  · exact getPath_setPath_diverge ["data"] hf [] [] t _
  · rfl

theorem sanitizeLargeField_id_of_not_dataStr {t : JValue} {f : String}
    (h : isDataStr (getPath t ["data", f]) = false) :
    sanitizeLargeField t f = t := by
  unfold sanitizeLargeField
  rw [h]
  simp

theorem foldl_large_preserves_pd (q : List String) :
    ∀ (l : List String), (∀ f ∈ l, f ≠ "personDetails") → ∀ t : JValue,
      getPath (l.foldl sanitizeLargeField t) ("data" :: "personDetails" :: q) =
        getPath t ("data" :: "personDetails" :: q)
  | [], _, t => rfl
  | f :: rest, hl, t => by
    have hf : f ≠ "personDetails" := hl f (List.mem_cons_self _ _)
    have hrest : ∀ g ∈ rest, g ≠ "personDetails" :=
      fun g hg => hl g (List.mem_cons_of_mem _ hg)
    show getPath ((rest.foldl sanitizeLargeField) (sanitizeLargeField t f)) _ = _
    rw [foldl_large_preserves_pd q rest hrest (sanitizeLargeField t f)]
    exact sanitizeLargeField_preserves_pd hf t q

theorem truthyO_some {o : Option JValue} (h : truthyO o = true) :
    ∃ w, o = some w ∧ truthy w = true := by
  cases o with
  | none => simp [truthyO] at h
  | some w => exact ⟨w, rfl, h⟩

theorem getPath_single_inv {v : JValue} {k : String} {w : JValue}
    (h : getPath v [k] = some w) : getField v k = some w := by
  obtain ⟨u, hu, hnil⟩ := getPath_cons_inv h
  simp [getPath] at hnil
  rw [hu, hnil]

theorem diverge_w1 (t x : JValue) :
    getPath (setPath t ["data", "photo"] x) ["data", "personDetails", "photo"] =
      getPath t ["data", "personDetails", "photo"] :=
  getPath_setPath_diverge ["data"] (show "photo" ≠ "personDetails" by decide) [] ["photo"] t x

theorem diverge_w2 (t x : JValue) :
    getPath (setPath t ["data", "personDetails", "photo"] x) ["data", "photo"] =
      getPath t ["data", "photo"] :=
  getPath_setPath_diverge ["data"] (show "personDetails" ≠ "photo" by decide) ["photo"] [] t x

theorem diverge_w3 (t x : JValue) :
    getPath (setPath t ["data", "personDetails", "photo"] x)
      ["data", "personDetails", "signature"] =
      getPath t ["data", "personDetails", "signature"] :=
  getPath_setPath_diverge ["data", "personDetails"]
    (show "photo" ≠ "signature" by decide) [] [] t x

theorem diverge_w4 (t x : JValue) :
    getPath (setPath t ["data", "photo"] x) ["data", "personDetails", "signature"] =
      getPath t ["data", "personDetails", "signature"] :=
  getPath_setPath_diverge ["data"] (show "photo" ≠ "personDetails" by decide) [] ["signature"] t x

theorem processPhoto_fail_id (d : JValue) {parse : ParseUrl} {fetch : FetchOutcome}
    (hfail : isValidImageUrl parse = false ∨ ∃ m, fetch = .err m) :
    processPhoto d parse fetch = d := by
  unfold processPhoto
  rcases hfail with hp | ⟨m, hm⟩
  · rw [hp]
    simp
  · subst hm
    split
    · rfl
    · rfl

theorem finishResult_fail_id (v : VResult) {parse : ParseUrl} {fetch : FetchOutcome}
    (hfail : isValidImageUrl parse = false ∨ ∃ m, fetch = .err m) :
    finishResult v parse fetch = v := by
  unfold finishResult
  split
  · rw [processPhoto_fail_id _ hfail]
  · rfl

theorem finishResult_nophoto {v : VResult} (h : truthyO (getField v.data "photo") = false)
    (parse : ParseUrl) (fetch : FetchOutcome) : finishResult v parse fetch = v := by
  unfold finishResult
  rw [h]
  simp

theorem verifyNIDGo_cached_406 {st : SvcState} {now : Nat} (htok : needsAuth st now = false)
    (nid dob nameEn : String) (fuel : Nat) (auths : List NetOutcome) (body : JValue)
    (parse : ParseUrl) (fetch : FetchOutcome) (rest : List Attempt) :
    verifyNIDGo nid dob nameEn now (fuel + 1) st auths
      (⟨.resp ⟨406, body⟩, parse, fetch⟩ :: rest) =
    { result := .ok (finishResult (mk406Result body) parse fetch),
      state := st, authCalls := 0, verifyCalls := 1 } := by
  unfold verifyNIDGo
  rw [ensureValidToken_cached htok]
  simp

theorem verifyNIDGo_cached_200OK {st : SvcState} {now : Nat} (htok : needsAuth st now = false)
    {body : JValue} (hOK : isOKStatus body = true)
    (nid dob nameEn : String) (fuel : Nat) (auths : List NetOutcome)
    (parse : ParseUrl) (fetch : FetchOutcome) (rest : List Attempt) :
    verifyNIDGo nid dob nameEn now (fuel + 1) st auths
      (⟨.resp ⟨200, body⟩, parse, fetch⟩ :: rest) =
    { result := .ok (finishResult (mkOKResult body) parse fetch),
      state := st, authCalls := 0, verifyCalls := 1 } := by
  unfold verifyNIDGo
  rw [ensureValidToken_cached htok]
  simp [hOK]

/-
Claim theorems.
-/

/-- C1: a registry 401 on the verification endpoint does not trigger the
documented invalidate-and-retry-once behaviour.  With a valid cached
credential and a registry answering 401 twice, verifyNID throws
"NID verification failed: Verification failed: 401" after a single
verification call: the second attempt is never issued, the cached
credential is not invalidated, and no ServiceUnavailableError arises.
The 401 is accepted by the validateStatus option (401 < 500), so the
error reaching the catch block carries no response and the
error.response.status === 401 retry branch cannot fire. -/
theorem claim1_unauthorized_response_not_retried :
    verifyNIDGo "1234567890" "1990-01-01" "Jane Doe" 0 5 stCached []
      [attempt401, attempt401] =
      { result := .error ⟨"NID verification failed: Verification failed: 401", none⟩,
        state := stCached, authCalls := 0, verifyCalls := 1 } := rfl

/-- C2: for the request id "12345678901234567" and the section-6 full-match
wire body (verified and fieldVerificationResult nested under success),
verifyNID resolves with verified = false and an empty
fieldVerificationResult object, because the source reads
response.data.verified and response.data.fieldVerificationResult at the
top level of the body instead of under success; only the person details
(read from success.data) come through. -/
theorem claim2_full_match_yields_unverified :
    verifyNIDGo "12345678901234567" "1990-01-01" "Jane Doe" 0 5 stCached []
      [⟨.resp ⟨200, fullMatchBody⟩, .err, .err "unused"⟩] =
      { result := .ok { success := true, verified := .bool false, data := fullMatchDetails,
                        fieldVerificationResult := .obj [], message := none },
        state := stCached, authCalls := 0, verifyCalls := 1 } := rfl

/-- C3 counterexample: sanitization does not recurse into nested
person-detail structures beyond the hard-coded paths: for a response
whose data.personDetails carries both a photo and a signature as data
URLs, the sanitized document still holds the full signature data URL
(a field named signature, holding a value that starts with the
embedded-data marker), so a base64 payload survives in the stored
document. -/
theorem claim3_counterexample_nested_signature_survives :
    getPath (sanitizeResponseData sanExample) ["data", "personDetails", "signature"] =
      some (.str "data:image/png;base64,BBB") ∧
    strStartsWith "data:image/png;base64,BBB" "data:" = true ∧
    "data:image/png;base64,BBB" ≠ "[SIGNATURE_DATA_REMOVED_FOR_STORAGE]" :=
  ⟨rfl, rfl, by decide⟩

/-- C3 amended: sanitizeResponseData redacts exactly its hard-coded
locations: a truthy data.personDetails.photo and a truthy data.photo are
replaced by the photo redaction marker (and the five large fields
directly under data are replaced by their own markers when they are
"data:" strings), while a field at any other nesting, such as
data.personDetails.signature, is stored unchanged. -/
theorem claim3_amended_sanitize_fixed_paths (d : JValue) :
    (truthyO (getPath d ["data", "personDetails", "photo"]) = true →
      getPath (sanitizeResponseData d) ["data", "personDetails", "photo"] =
        some (.str photoMarker)) ∧
    (truthyO (getPath d ["data", "photo"]) = true →
      getPath (sanitizeResponseData d) ["data", "photo"] = some (.str photoMarker)) ∧
    (∀ w, getPath d ["data", "personDetails", "signature"] = some w →
      getPath (sanitizeResponseData d) ["data", "personDetails", "signature"] = some w) := by
  cases d with
  | null => exact ⟨by intro h; simp [getPath, getField, truthyO] at h,
      by intro h; simp [getPath, getField, truthyO] at h,
      fun w hw => hw⟩
  | bool b => exact ⟨by intro h; simp [getPath, getField, truthyO] at h,
      by intro h; simp [getPath, getField, truthyO] at h,
      fun w hw => hw⟩
  | str s => exact ⟨by intro h; simp [getPath, getField, truthyO] at h,
      by intro h; simp [getPath, getField, truthyO] at h,
      fun w hw => hw⟩
  | num n => exact ⟨by intro h; simp [getPath, getField, truthyO] at h,
      by intro h; simp [getPath, getField, truthyO] at h,
      fun w hw => hw⟩
  | obj fs =>
    have hsan : sanitizeResponseData (.obj fs) =
        largeFields.foldl sanitizeLargeField (sanStepDataJ (sanStepPDJ (.obj fs))) := rfl
    refine ⟨?_, ?_, ?_⟩
    · intro hp
      obtain ⟨w, hw, htw⟩ := truthyO_some hp
      have hs1 : getPath (sanStepPDJ (.obj fs)) ["data", "personDetails", "photo"] =
          some (.str photoMarker) := by
        obtain ⟨d0, hd0, hr1⟩ := getPath_cons_inv hw
        obtain ⟨pd0, hpd0, hr2⟩ := getPath_cons_inv hr1
        have hc1 : truthyO (getPath (JValue.obj fs) ["data"]) = true := by
          rw [getPath_cons_some hd0]
          exact getField_some_obj hpd0
        have hc2 : truthyO (getPath (JValue.obj fs) ["data", "personDetails"]) = true := by
          rw [getPath_cons_some hd0, getPath_cons_some hpd0]
          obtain ⟨w2, hw2, _⟩ := getPath_cons_inv hr2
          exact getField_some_obj hw2
        unfold sanStepPDJ
        rw [hc1, hc2, hp]
        simp only [Bool.and_true, Bool.and_self, if_true]
        exact getPath_setPath_self _ _ w _ hw
      have hs2 : getPath (sanStepDataJ (sanStepPDJ (.obj fs)))
          ["data", "personDetails", "photo"] = some (.str photoMarker) := by
        unfold sanStepDataJ
        split
        · rw [diverge_w1]
          exact hs1
        · exact hs1
      rw [hsan, foldl_large_preserves_pd ["photo"] largeFields (by decide)]
      exact hs2
    · intro hp
      obtain ⟨w, hw, htw⟩ := truthyO_some hp
      obtain ⟨d0, hd0, hr1⟩ := getPath_cons_inv hw
      have hphoto : getField d0 "photo" = some w := getPath_single_inv hr1
      have hA : getPath (sanStepPDJ (.obj fs)) ["data", "photo"] =
          getPath (JValue.obj fs) ["data", "photo"] := by
        unfold sanStepPDJ
        split
        · exact diverge_w2 _ _
        · rfl
      have hB : truthyO (getPath (sanStepPDJ (.obj fs)) ["data"]) = true := by
        unfold sanStepPDJ
        split
        · rw [getPath_cons_some (getField_setPath_cons_self hd0 _ _)]
          show truthy (setPath d0 ["personDetails", "photo"] (.str photoMarker)) = true
          cases d0 with
          | obj fs0 => exact truthy_setPath_obj_cons fs0 _ _ _
          | null => simp [getField] at hphoto
          | bool b => simp [getField] at hphoto
          | str s => simp [getField] at hphoto
          | num n => simp [getField] at hphoto
        · rw [getPath_cons_some hd0]
          exact getField_some_obj hphoto
      have hC : truthyO (getPath (sanStepPDJ (.obj fs)) ["data", "photo"]) = true := by
        rw [hA, hw]
        exact htw
      have hD : getPath (sanStepDataJ (sanStepPDJ (.obj fs))) ["data", "photo"] =
          some (.str photoMarker) := by
        unfold sanStepDataJ
        rw [hB, hC]
        simp only [Bool.and_self, if_true]
        exact getPath_setPath_self _ _ w _ (by rw [hA]; exact hw)
      rw [hsan]
      show getPath (sanitizeLargeField (sanitizeLargeField (sanitizeLargeField
        (sanitizeLargeField (sanitizeLargeField (sanStepDataJ (sanStepPDJ (.obj fs)))
          "image") "photo") "picture") "avatar") "signature") ["data", "photo"] =
        some (.str photoMarker)
      have h1 : getPath (sanitizeLargeField (sanStepDataJ (sanStepPDJ (.obj fs))) "image")
          ["data", "photo"] = some (.str photoMarker) := by
        rw [sanitizeLargeField_preserves_data (show "image" ≠ "photo" by decide)]
        exact hD
      have h2 : sanitizeLargeField (sanitizeLargeField (sanStepDataJ (sanStepPDJ (.obj fs)))
          "image") "photo" = sanitizeLargeField (sanStepDataJ (sanStepPDJ (.obj fs))) "image" :=
        sanitizeLargeField_id_of_not_dataStr (by rw [h1]; rfl)
      rw [h2]
      rw [sanitizeLargeField_preserves_data (show "signature" ≠ "photo" by decide)]
      rw [sanitizeLargeField_preserves_data (show "avatar" ≠ "photo" by decide)]
      rw [sanitizeLargeField_preserves_data (show "picture" ≠ "photo" by decide)]
      exact h1
    · intro w hw
      have hp1 : getPath (sanStepPDJ (.obj fs)) ["data", "personDetails", "signature"] =
          some w := by
        unfold sanStepPDJ
        split
        · rw [diverge_w3]
          exact hw
        · exact hw
      have hp2 : getPath (sanStepDataJ (sanStepPDJ (.obj fs)))
          ["data", "personDetails", "signature"] = some w := by
        unfold sanStepDataJ
        split
        · rw [diverge_w4]
          exact hp1
        · exact hp1
      rw [hsan, foldl_large_preserves_pd ["signature"] largeFields (by decide)]
      exact hp2

/-- C3 amended witness: on the concrete nested example, the truthy
data.personDetails.photo hypothesis holds and the marker is stored. -/
theorem claim3_amended_sanitize_fixed_paths_witness :
    truthyO (getPath sanExample ["data", "personDetails", "photo"]) = true ∧
    getPath (sanitizeResponseData sanExample) ["data", "personDetails", "photo"] =
      some (.str photoMarker) :=
  ⟨rfl, (claim3_amended_sanitize_fixed_paths sanExample).1 rfl⟩

/-- C4 counterexample: an identifier of length 12 (neither 10 nor 17
digits) is silently mapped to the 10-digit channel. -/
theorem claim4_counterexample_length12_maps_to_10digit :
    nidChannel "123456789012" = "nid10Digit" ∧
    ("123456789012" : String).length ≠ 10 :=
  ⟨rfl, by decide⟩

/-- C4 amended: the outbound payload uses the 17-digit channel exactly
for identifiers of length 17; every other length, including 10, is
mapped to the 10-digit channel (so lengths other than 10 and 17 are
silently defaulted to the 10-digit channel rather than rejected by this
component). -/
theorem claim4_amended_channel_selection (nid : String) :
    (nidChannel nid = "nid17Digit" ↔ nid.length = 17) ∧
    (nid.length ≠ 17 → nidChannel nid = "nid10Digit") ∧
    (∀ dateOfBirth nameEn : String,
      (mkRequestPayload nid dateOfBirth nameEn).channel = nidChannel nid) := by
  unfold nidChannel
  by_cases h : nid.length = 17
  · simp [h, mkRequestPayload, nidChannel]
  · simp [h, mkRequestPayload, nidChannel]

/-- C4 amended witness: a 10-digit identifier selects the 10-digit
channel. -/
theorem claim4_amended_channel_selection_witness :
    nidChannel "1234567890" = "nid10Digit" :=
  (claim4_amended_channel_selection "1234567890").2.1 (by decide)

/-- C5 counterexample: an HTTP 406 response whose body carries
verified: true and an empty fieldVerificationResult object is folded
verbatim: the call resolves with verified = true (not false) and with an
empty fieldVerificationResult in which both flags are omitted. -/
theorem claim5_counterexample_406_folds_body :
    verifyNIDGo "1234567890" "1990-01-01" "Jane Doe" 0 5 stCached []
      [⟨.resp ⟨406, mismatchBody⟩, .err, .err "unused"⟩] =
      { result := .ok { success := true, verified := .bool true, data := .obj [],
                        fieldVerificationResult := .obj [],
                        message := some "NID found but verification data does not match" },
        state := stCached, authCalls := 0, verifyCalls := 1 } ∧
    getField (JValue.obj []) "nameEn" = none :=
  ⟨rfl, rfl⟩

/-- C5 amended: every HTTP 406 response yields a successful non-error
result carrying the advisory record-found-but-mismatch message and
whatever person details the body supplied; the verified flag is the
body value defaulted to false when absent, and the two field-match
flags default to false only when the body carries no
fieldVerificationResult at all (a present but partial or empty object
is folded in verbatim). -/
theorem claim5_amended_406_result (st : SvcState) (now : Nat) (auths : List NetOutcome)
    (nid dob nameEn : String) (body : JValue) (parse : ParseUrl) (fetch : FetchOutcome)
    (rest : List Attempt) (fuel : Nat)
    (htok : needsAuth st now = false)
    (hph : truthyO (getField (jsOr (getField body "data") (.obj [])) "photo") = false) :
    ∃ r : VResult,
      (verifyNIDGo nid dob nameEn now (fuel + 1) st auths
        (⟨.resp ⟨406, body⟩, parse, fetch⟩ :: rest)).result = .ok r ∧
      r.success = true ∧
      r.message = some "NID found but verification data does not match" ∧
      r.data = jsOr (getField body "data") (.obj []) ∧
      (getField body "fieldVerificationResult" = none →
        r.fieldVerificationResult =
          .obj [("nameEn", .bool false), ("dateOfBirth", .bool false)]) ∧
      (getField body "verified" = none → r.verified = .bool false) := by
  refine ⟨mk406Result body, ?_, rfl, rfl, rfl, ?_, ?_⟩
  · rw [verifyNIDGo_cached_406 htok]
    rw [finishResult_nophoto hph]
  · intro h
    simp [mk406Result, jsOr, h]
  · intro h
    simp [mk406Result, jsOr, h]

/-- C5 amended witness: a 406 with an empty body yields success with
defaulted flags and verified = false. -/
theorem claim5_amended_406_result_witness :
    ∃ r : VResult,
      (verifyNIDGo "1234567890" "1990-01-01" "Jane Doe" 0 1 stCached []
        [⟨.resp ⟨406, .obj []⟩, .err, .err "unused"⟩]).result = .ok r ∧
      r.success = true ∧
      r.message = some "NID found but verification data does not match" ∧
      r.data = jsOr (getField (.obj []) "data") (.obj []) ∧
      (getField (JValue.obj []) "fieldVerificationResult" = none →
        r.fieldVerificationResult =
          .obj [("nameEn", .bool false), ("dateOfBirth", .bool false)]) ∧
      (getField (JValue.obj []) "verified" = none → r.verified = .bool false) :=
  claim5_amended_406_result stCached 0 [] "1234567890" "1990-01-01" "Jane Doe"
    (.obj []) .err (.err "unused") [] 0 rfl rfl

/-- C6 counterexample: two concurrent callers that both test the empty
credential cache before either login completes each dispatch their own
authentication exchange: the interleaving check 0, check 1, complete 0,
complete 1 performs two login calls (the claim requires exactly one),
and both callers still finish. -/
theorem claim6_counterexample_two_callers_two_exchanges :
    (runSchedule 0 "tok" (initCC 2)
      [.check 0, .check 1, .complete 0, .complete 1]).loginCalls = 2 ∧
    (runSchedule 0 "tok" (initCC 2)
      [.check 0, .check 1, .complete 0, .complete 1]).phases = [.done, .done] :=
  ⟨rfl, rfl⟩

/-- C6 amended: credential refresh is not single-flighted: for every N,
in the interleaving where all N callers test the absent credential
before any login completes, every caller dispatches its own
authentication exchange, for N login calls in total, and all callers
terminate. -/
theorem claim6_amended_no_single_flight (now : Nat) (tok : String) (N : Nat) :
    (runSchedule now tok (initCC N) (checksUpTo N ++ completesUpTo N)).loginCalls = N ∧
    (runSchedule now tok (initCC N) (checksUpTo N ++ completesUpTo N)).phases =
      List.replicate N Phase.done := by
  rw [runSchedule_append, runChecks now tok N N (le_refl N)]
  have hz : N - N = 0 := by omega
  rw [hz]
  simp only [List.replicate, List.append_nil]
  obtain ⟨st2, hst2⟩ := runCompletes now tok N N (le_refl N) ⟨.null, none⟩
  rw [hz] at hst2
  simp only [List.replicate, List.append_nil] at hst2
  rw [hst2]
  exact ⟨rfl, rfl⟩

/-- C7: when a cached access token is present (truthy) and its expiry
timestamp lies strictly in the future, ensureValidToken performs zero
network calls and leaves the cached credential (token and expiry)
unchanged. -/
theorem claim7_cached_credential_no_network (st : SvcState) (now e : Nat)
    (auths : List NetOutcome)
    (h1 : truthy st.accessToken = true) (h2 : st.tokenExpiry = some e) (h3 : now < e) :
    ensureValidToken st now auths = (.ok st, auths, 0) := by
  have hna : needsAuth st now = false := by
    unfold needsAuth
    rw [h1, h2]
    simp
    omega
  exact ensureValidToken_cached hna auths

/-- C7 witness: at time 3 with a token expiring at 1000, no login call
happens and the state is returned unchanged. -/
theorem claim7_cached_credential_no_network_witness :
    ensureValidToken stCached 3 [] = (.ok stCached, [], 0) :=
  claim7_cached_credential_no_network stCached 3 1000 [] rfl rfl (by decide)

/-- C8: when the returned person details contain a photo reference and
asset inlining fails (invalid or non-http(s) URL, unrecognized
extension, fetch error or timeout), the verification still resolves
successfully, the verified flag is exactly the value determined by the
response body, and the person details, including the original photo
reference, are returned untouched. -/
theorem claim8_asset_inline_failure_nonfatal (st : SvcState) (now : Nat)
    (auths : List NetOutcome) (nid dob nameEn : String) (body : JValue)
    (parse : ParseUrl) (fetch : FetchOutcome) (rest : List Attempt) (fuel : Nat)
    (htok : needsAuth st now = false)
    (hOK : isOKStatus body = true)
    (hfail : isValidImageUrl parse = false ∨ ∃ m, fetch = .err m) :
    ∃ r : VResult,
      (verifyNIDGo nid dob nameEn now (fuel + 1) st auths
        (⟨.resp ⟨200, body⟩, parse, fetch⟩ :: rest)).result = .ok r ∧
      r.success = true ∧
      r.verified = jsOr (getField body "verified") (.bool false) ∧
      r.data = jsOr (getPath body ["success", "data"]) (.obj []) := by
  refine ⟨mkOKResult body, ?_, rfl, rfl, rfl⟩
  rw [verifyNIDGo_cached_200OK htok hOK]
  rw [finishResult_fail_id _ hfail]

/-- C8 witness: a fetch timeout on a valid photo URL leaves the original
URL in the returned person details and the call succeeds. -/
theorem claim8_asset_inline_failure_nonfatal_witness :
    ∃ r : VResult,
      (verifyNIDGo "1234567890" "1990-01-01" "Jane Doe" 0 1 stCached []
        [⟨.resp ⟨200, okPhotoBody⟩, .ok ⟨"http:", "/p.jpg"⟩,
          .err "timeout of 30000ms exceeded"⟩]).result = .ok r ∧
      r.success = true ∧
      r.verified = jsOr (getField okPhotoBody "verified") (.bool false) ∧
      r.data = jsOr (getPath okPhotoBody ["success", "data"]) (.obj []) :=
  claim8_asset_inline_failure_nonfatal stCached 0 [] "1234567890" "1990-01-01" "Jane Doe"
    okPhotoBody (.ok ⟨"http:", "/p.jpg"⟩) (.err "timeout of 30000ms exceeded") [] 0
    rfl rfl (Or.inr ⟨"timeout of 30000ms exceeded", rfl⟩)

/-- C9: the audit write is decoupled from response delivery: the body
handed to the original send is the captured body itself, independent of
the database outcome, and a database failure is converted into a logged
message only, never an error visible to the caller. -/
theorem claim9_audit_decoupled (req : ReqInfo) (statusCode : Nat) (body : JValue)
    (processingTime : Nat) (requestId : String) (dbo : DbOutcome) :
    (sendOverride req statusCode body processingTime requestId dbo).toCaller = body ∧
    (∀ m, dbo = .fail m →
      (sendOverride req statusCode body processingTime requestId dbo).audit =
        .loggedError ("Failed to log request to database: " ++ m)) := by
  refine ⟨rfl, ?_⟩
  intro m hm
  subst hm
  rfl

/-- C9 witness: with a failing database the caller still receives the
response body and the failure is only logged. -/
theorem claim9_audit_decoupled_witness :
    (sendOverride ⟨none, none, none, none, none⟩ 200 (.obj []) 5 "r1"
      (.fail "db down")).toCaller = .obj [] ∧
    (sendOverride ⟨none, none, none, none, none⟩ 200 (.obj []) 5 "r1"
      (.fail "db down")).audit =
      .loggedError ("Failed to log request to database: " ++ "db down") :=
  ⟨(claim9_audit_decoupled ⟨none, none, none, none, none⟩ 200 (.obj []) 5 "r1"
      (.fail "db down")).1,
   (claim9_audit_decoupled ⟨none, none, none, none, none⟩ 200 (.obj []) 5 "r1"
      (.fail "db down")).2 "db down" rfl⟩

/-- C10: sanitizeResponseData never mutates its argument: at the store
level, the function deep-copies the response by a JSON round trip and
mutates only the copy, so every object that existed before the call
(the argument and everything reachable from it) reads unchanged
afterwards. -/
theorem claim10_sanitize_frame (fuel : Nat) (h : Store) (v : HVal) :
    ∀ a, a < h.length → ((sanitizeResponseDataH fuel h v).1)[a]? = h[a]? := by
  intro a ha
  cases v with
  | null => rfl
  | bool b => rfl
  | str s => rfl
  | num m => rfl
  | ref a0 =>
    cases htj : toJson h fuel (.ref a0) with
    | none => simp [sanitizeResponseDataH, htj]
    | some j =>
      have heq : (sanitizeResponseDataH fuel h (.ref a0)).1 =
          List.foldl (sanStepLarge (fromJson j h).1)
            (sanStepData (fromJson j h).1 (sanStepPD (fromJson j h).1 (fromJson j h).2))
            largeFields := by
        simp [sanitizeResponseDataH, htj]
      rw [heq]
      obtain ⟨l1, n1, r1, f1⟩ := fromJson_spec j h
      have hr1 : RegionFresh h.length (fromJson j h).2 :=
        r1 h.length (le_refl _) (regionFresh_self h)
      obtain ⟨p1, p2⟩ := sanStepPD_spec hr1 f1
      obtain ⟨q1, q2⟩ := sanStepData_spec p2 f1
      obtain ⟨w1, w2⟩ := foldl_sanStepLarge_spec f1 largeFields q2
      exact (lowUnchanged_trans l1
        (lowUnchanged_trans p1 (lowUnchanged_trans q1 w1))) a ha

/-- C10 witness: sanitizing the concrete example store leaves the
original response object (address 0, holding the photo data URL)
unchanged. -/
theorem claim10_sanitize_frame_witness :
    ((sanitizeResponseDataH 10 storeExample (.ref 2)).1)[0]? = storeExample[0]? :=
  claim10_sanitize_frame 10 storeExample (.ref 2) 0 (by decide)

end NidVerif
